import Mathlib

/-!
Verification of the trade ledger and risk/position engine of the
ai-trading-assistant repository, as a shallow embedding in Lean 4.

Modelling conventions, applied uniformly:
* Python floats are modelled as rationals (`ℚ`).
* Python dicts used as records are modelled as structures whose fields are
  `Option`-valued when the corresponding key may be absent; `none` means the
  key is missing.
* Timestamps and free-text notes are opaque strings; formatted log messages
  are abstracted to fixed string constants, and decision reasons to tags
  naming the branch of the source that produced them.
* A Python expression that raises (`ZeroDivisionError`, `KeyError`,
  `ValueError`) inside a `try` block is modelled by an explicit guard that
  returns what the corresponding `except` handler returns; each such guard
  carries a comment naming the exception.
* The CSV file behind `PerformanceTracker` is modelled as an in-memory
  `List TradeRow`; `log_trade`/`update_trade` return the new list together
  with the `bool` the Python method returns.
-/

namespace TradingAssistant

/-! ## Ledger store: components/performance_tracker.py -/

/-- One row of the trades CSV (`trade_row` in `PerformanceTracker.log_trade`). -/
structure TradeRow where
  timestamp : String
  symbol : String
  entry_price : Option ℚ
  target_price : Option ℚ
  stop_price : Option ℚ
  position_size : Option ℚ
  confidence : Option ℚ
  reason : String
  ttype : String
  simulated : Bool
  status : String
  exit_price : Option ℚ
  exit_time : Option String
  profit_loss : Option ℚ
  profit_loss_percent : Option ℚ
  notes : String
deriving Repr, DecidableEq

/-- The `trade_data` dict passed to `PerformanceTracker.log_trade`.
`none` models an absent key. -/
structure TradeData where
  symbol : Option String := none
  entry_price : Option ℚ := none
  target_price : Option ℚ := none
  stop_price : Option ℚ := none
  size : Option ℚ := none
  position_size : Option ℚ := none
  confidence : Option ℚ := none
  reason : Option String := none
  notes : Option String := none
  ttype : Option String := none
  simulated : Option Bool := none
  status : Option String := none
  timestamp : Option String := none
  exit_price : Option ℚ := none
  exit_time : Option String := none
  profit_loss : Option ℚ := none
  profit_loss_percent : Option ℚ := none
deriving Repr, DecidableEq

/-- `PerformanceTracker.log_trade`: validates that `symbol` and `entry_price`
keys are present, then appends a row built only from the keys
`timestamp, symbol, entry_price, target_price, stop_price, size, confidence,
reason, type, simulated, status, notes`; the row's exit-related cells are
hard-coded to `None` and `position_size` comes from the `size` key with
default 100.  Returns `false` (and leaves the file untouched) on validation
failure. -/
def log_trade (now : String) (ledger : List TradeRow) (d : TradeData) :
    Bool × List TradeRow :=
  match d.symbol, d.entry_price with
  | some sym, some ep =>
    let row : TradeRow := {
      timestamp := d.timestamp.getD now
      symbol := sym
      entry_price := some ep
      target_price := d.target_price
      stop_price := d.stop_price
      position_size := some (d.size.getD 100)
      confidence := d.confidence
      reason := d.reason.getD ""
      ttype := d.ttype.getD "PAPER"
      simulated := d.simulated.getD true
      status := d.status.getD "OPEN"
      exit_price := none
      exit_time := none
      profit_loss := none
      profit_loss_percent := none
      notes := d.notes.getD "" }
    (true, ledger ++ [row])
  | _, _ => (false, ledger)   -- ValueError "Missing required trade data fields"

/-- The `updates` dict passed to `PerformanceTracker.update_trade`.  Fields are
the union of the keys actually supplied by callers in the repository
(position_manager.py) together with the P&L keys a caller could try to smuggle
in; `some v` models a present key. -/
structure Patch where
  status : Option String := none
  exit_price : Option ℚ := none
  exit_time : Option String := none
  profit_loss : Option ℚ := none
  profit_loss_percent : Option ℚ := none
  position_size : Option ℚ := none
  stop_price : Option ℚ := none
  notes : Option String := none
deriving Repr, DecidableEq

/-- `df.at[idx, key] = value` for a present patch key on an optional cell. -/
def patchCell {α : Type} (new old : Option α) : Option α :=
  match new with
  | some v => some v
  | none => old

/-- The `for key, value in updates.items(): df.at[trade_idx, key] = value`
loop of `update_trade`. -/
def applyPatch (r : TradeRow) (p : Patch) : TradeRow :=
  { r with
    status := p.status.getD r.status
    exit_price := patchCell p.exit_price r.exit_price
    exit_time := patchCell p.exit_time r.exit_time
    profit_loss := patchCell p.profit_loss r.profit_loss
    profit_loss_percent := patchCell p.profit_loss_percent r.profit_loss_percent
    position_size := patchCell p.position_size r.position_size
    stop_price := patchCell p.stop_price r.stop_price
    notes := p.notes.getD r.notes }

/-- Row predicate for `(df['symbol'] == symbol) & (df['status'] == 'OPEN')`. -/
def isOpenFor (s : String) (r : TradeRow) : Bool :=
  r.symbol == s && r.status == "OPEN"

/-- Index of the most recent OPEN row for a symbol
(`df[mask].index[-1]` in `update_trade`). -/
def lastOpenIdx? (ledger : List TradeRow) (s : String) : Option ℕ :=
  match ledger.reverse.findIdx? (isOpenFor s) with
  | some j => some (ledger.length - 1 - j)
  | none => none

/-- `PerformanceTracker.update_trade`: finds the most recent OPEN row for the
symbol (returning `false` unchanged if none), writes every key of the patch
into that row, and — only when the patch sets `status` to `CLOSED` *and*
contains an `exit_price` key — recomputes `profit_loss`,
`profit_loss_percent` and stamps `exit_time` from the (patched) row's own
`entry_price` and `position_size`. -/
def update_trade (now : String) (ledger : List TradeRow) (symbol : String)
    (p : Patch) : Bool × List TradeRow :=
  match lastOpenIdx? ledger symbol with
  | none => (false, ledger)   -- "No open trade found", returns False
  | some i =>
    match ledger[i]? with
    | none => (false, ledger)   -- unreachable: lastOpenIdx? yields a valid index
    | some row =>
      let row1 := applyPatch row p
      match p.exit_price with
      | some xp =>
        if p.status = some "CLOSED" then
          -- missing numeric cells would be NaN in pandas; rows produced by
          -- log_trade always carry entry_price and position_size, so the
          -- defaults below are never exercised on reachable ledgers
          let e := row1.entry_price.getD 0
          let sz := row1.position_size.getD 0
          if e = 0 then (false, ledger)   -- ZeroDivisionError: file never rewritten
          else
            let row2 := { row1 with
              profit_loss := some ((xp - e) * sz)
              profit_loss_percent := some ((xp / e - 1) * 100)
              exit_time := some (p.exit_time.getD now) }
            (true, ledger.set i row2)
        else (true, ledger.set i row1)
      | none => (true, ledger.set i row1)

/-- `PerformanceTracker.get_open_positions`: the rows with status OPEN. -/
def get_open_positions (ledger : List TradeRow) : List TradeRow :=
  ledger.filter (fun r => r.status == "OPEN")

/-- Number of OPEN rows for a symbol. -/
def openCount (ledger : List TradeRow) (s : String) : ℕ :=
  (get_open_positions ledger).countP (fun r => r.symbol == s)

/-! ## Account model: components/account_manager.py -/

/-- The `self.metrics` dict of `AccountManager` (numeric fields only;
`last_updated` is irrelevant to the claims). -/
structure AccountMetrics where
  starting_balance : ℚ
  current_balance : ℚ
  buying_power : ℚ
  cash_reserve : ℚ
  total_positions_value : ℚ
  unrealized_pl : ℚ
  realized_pl : ℚ
  high_water_mark : ℚ
deriving Repr, DecidableEq

/-- One value of the `positions` dict passed to `update_account_metrics`;
`realized_pl` is read with `.get(..., 0)` in the source, hence optional. -/
structure PosInfo where
  current_value : ℚ
  unrealized_pl : ℚ
  realized_pl : Option ℚ := none
deriving Repr, DecidableEq

/-- The authoritative account snapshot a live broker returns
(`load_account_profile`). -/
structure BrokerProfile where
  equity : ℚ
  buying_power : ℚ
deriving Repr, DecidableEq

/-- Input of one `update_account_metrics` call: either an authenticated broker
profile or the paper-trading positions dict. -/
inductive AccountInput where
  | broker (profile : BrokerProfile)
  | paper (positions : List PosInfo)
deriving Repr, DecidableEq

/-- `AccountManager.update_account_metrics`: refreshes balances from the broker
or recomputes them from the positions, then raises the high-water mark if the
new balance exceeds it. -/
def update_account_metrics (m : AccountMetrics) (inp : AccountInput) :
    AccountMetrics :=
  let m1 :=
    match inp with
    | .broker p =>
      { m with current_balance := p.equity, buying_power := p.buying_power }
    | .paper ps =>
      let positions_value := (ps.map (·.current_value)).sum
      let upl := (ps.map (·.unrealized_pl)).sum
      let rpl := (ps.map (fun x => x.realized_pl.getD 0)).sum
      let bal := m.starting_balance + upl + rpl
      { m with
        total_positions_value := positions_value
        unrealized_pl := upl
        realized_pl := rpl
        current_balance := bal
        buying_power := max 0 (bal - (positions_value + m.cash_reserve)) }
  if m1.current_balance > m1.high_water_mark then
    { m1 with high_water_mark := m1.current_balance }
  else m1

/-- Python `int()` applied to a float: truncation toward zero. -/
def pyInt (q : ℚ) : ℤ :=
  if 0 ≤ q then ⌊q⌋ else -⌊-q⌋

/-- Python 3 `round()` to an integer: round half to even. -/
def pyRound (q : ℚ) : ℤ :=
  let n := ⌊q⌋
  let r := q - n
  if r < 1 / 2 then n
  else if 1 / 2 < r then n + 1
  else if Even n then n else n + 1

/-- The position-sizing configuration values `calculate_position_size`
reads from `config_manager` (with the source's defaults 1.0 / 3.0 / 20.0 / 5). -/
structure SizingConfig where
  risk_per_trade_percent : ℚ := 1
  min_position_percent : ℚ := 3
  max_position_percent : ℚ := 20
  preferred_share_increment : ℤ := 5
deriving Repr, DecidableEq

/-- The record returned by `AccountManager.calculate_position_size`. -/
structure SizeResult where
  shares : ℤ
  position_value : ℚ
  risk_amount : ℚ
  risk_percent : ℚ
  position_percent : ℚ
deriving Repr, DecidableEq

/-- Share count before any clamping: `int(max_risk_amount / risk_per_share)`. -/
def cpsShares0 (cfg : SizingConfig) (current_balance entry_price stop_price : ℚ) : ℤ :=
  pyInt (current_balance * cfg.risk_per_trade_percent / 100 / |entry_price - stop_price|)

/-- Share count after the min/max position-value clamp of
`calculate_position_size`. -/
def cpsShares1 (cfg : SizingConfig)
    (current_balance buying_power entry_price stop_price : ℚ) : ℤ :=
  let shares0 := cpsShares0 cfg current_balance entry_price stop_price
  let position_value := (shares0 : ℚ) * entry_price
  let min_position := current_balance * cfg.min_position_percent / 100
  let max_position := min (current_balance * cfg.max_position_percent / 100) buying_power
  if position_value < min_position then pyInt (min_position / entry_price)
  else if position_value > max_position then pyInt (max_position / entry_price)
  else shares0

/-- Share count after rounding to the preferred increment:
`round(shares / increment) * increment`. -/
def cpsShares2 (cfg : SizingConfig)
    (current_balance buying_power entry_price stop_price : ℚ) : ℤ :=
  pyRound ((cpsShares1 cfg current_balance buying_power entry_price stop_price : ℚ) /
      (cfg.preferred_share_increment : ℚ)) * cfg.preferred_share_increment

/-- `AccountManager.calculate_position_size`.  `none` models the
`{'error': ...}` dict: returned explicitly when `risk_per_share == 0`, and by
the `except` handler when a `ZeroDivisionError` is raised (division by a zero
`entry_price` in the clamp branches, by a zero `preferred_share_increment` in
the rounding step, or by a zero `current_balance` in the final percentages). -/
def calculate_position_size (cfg : SizingConfig)
    (current_balance buying_power entry_price stop_price : ℚ) : Option SizeResult :=
  let risk_per_share := |entry_price - stop_price|
  if risk_per_share = 0 then none
  else if current_balance = 0 then none
  else if cfg.preferred_share_increment = 0 then none
  else
    let shares0 := cpsShares0 cfg current_balance entry_price stop_price
    let position_value := (shares0 : ℚ) * entry_price
    let min_position := current_balance * cfg.min_position_percent / 100
    let max_position := min (current_balance * cfg.max_position_percent / 100) buying_power
    if entry_price = 0 ∧ (position_value < min_position ∨ position_value > max_position)
    then none
    else
      let shares := cpsShares2 cfg current_balance buying_power entry_price stop_price
      let final_position_value := (shares : ℚ) * entry_price
      let final_risk_amount := (shares : ℚ) * risk_per_share
      some {
        shares := shares
        position_value := final_position_value
        risk_amount := final_risk_amount
        risk_percent := final_risk_amount / current_balance * 100
        position_percent := final_position_value / current_balance * 100 }

/-! ## Position state machine: components/trading_analyst.py -/

/-- The action kinds of the parsed oracle response.  `invalid` stands for any
string outside the four recognized kinds (the line-115 fallback of
`analyze_position` maps it to HOLD). -/
inductive ActionKind where
  | hold
  | exitPos
  | partExit
  | adjustStops
  | invalid
deriving Repr, DecidableEq

/-- Tags identifying which branch of the source produced a decision's reason
string (formatted messages are abstracted to their branch). -/
inductive ReasonTag where
  | stopLossViolated      -- "Stop loss violated: ..."
  | largeAdverseMove      -- "Large adverse move: ..."
  | tooCloseToStop        -- "Too close to stop loss ..."
  | positionDown          -- "Position down ...%"
  | fromOracle            -- the reason carried by the parsed LLM response
  | analysisError         -- the except handler's "Analysis error: ..."
deriving Repr, DecidableEq

/-- The action dict `analyze_position` returns. -/
structure Decision where
  action : ActionKind
  reason : ReasonTag
deriving Repr, DecidableEq

/-- The `stock_data` dict (fields relevant to `analyze_position`). -/
structure Stock where
  symbol : Option String := none
  current_price : Option ℚ := none
deriving Repr, DecidableEq

/-- The `position_data` dict (numeric fields read by `analyze_position` and
`PositionManager`); `none` models an absent key. -/
structure Position where
  entry_price : Option ℚ := none
  target_price : Option ℚ := none
  stop_price : Option ℚ := none
  size : Option ℚ := none
deriving Repr, DecidableEq

/-- `TradingAnalyst._should_force_exit`: stop-loss breach first, then the
2% adverse-move check.  A missing key or a zero `entry_price` raises inside
the method's own `try`, whose handler returns `None`. -/
def should_force_exit (current_price : ℚ) (pos : Position) : Option Decision :=
  match pos.entry_price, pos.stop_price with
  | some entry, some stop =>
    if current_price ≤ stop then some ⟨.exitPos, .stopLossViolated⟩
    else if entry = 0 then none   -- ZeroDivisionError in loss_percent, caught here
    else if (current_price - entry) / entry * 100 < -2 then
      some ⟨.exitPos, .largeAdverseMove⟩
    else none
  | _, _ => none   -- KeyError, caught by the method's own handler

/-- `TradingAnalyst.analyze_position`, with the LLM collaborator abstracted to
the parsed action kind `oracle` it would yield (`_parse_position_action`
output).  Field validation and the forced-exit check run before the oracle is
consulted; a raised exception anywhere yields the HOLD/analysis-error dict of
the outer handler. -/
def analyze_position (stock : Stock) (pos : Position) (oracle : ActionKind) :
    Decision :=
  match stock.symbol, stock.current_price,
      pos.entry_price, pos.target_price, pos.stop_price with
  | some _, some price, some entry, some _, some stop =>
    match should_force_exit price pos with
    | some d => d
    | none =>
      if entry = 0 then ⟨.hold, .analysisError⟩   -- ZeroDivisionError at unrealized_pl_pct
      else
        let pl_pct := (price - entry) / entry * 100
        let stop_distance := |entry - stop|
        match oracle with
        | .hold =>
          if stop_distance = 0 then ⟨.hold, .analysisError⟩   -- ZeroDivisionError at stop_buffer
          else if (price - stop) / stop_distance < 1 / 10 then
            ⟨.exitPos, .tooCloseToStop⟩
          else if pl_pct < -(3 / 2) then ⟨.exitPos, .positionDown⟩
          else ⟨.hold, .fromOracle⟩
        | .invalid => ⟨.hold, .fromOracle⟩   -- line 115: unrecognized kind demoted to HOLD
        | k => ⟨k, .fromOracle⟩
  | _, _, _, _, _ => ⟨.hold, .analysisError⟩   -- ValueError on missing required fields

/-! ## Position manager: components/position_manager.py -/

/-- `PositionManager._handle_partial_exit`: halves the position, logs the
exited slice as a new trade via `log_trade` (note the dict it builds carries
the slice under the key `position_size`, which `log_trade` does not read),
then shrinks the open row via `update_trade`.  Any raised exception
(missing `size`/`entry_price` key, zero entry price in the percent P&L)
reaches the outer handler and leaves the ledger untouched. -/
def handle_partial_exit (now : String) (ledger : List TradeRow) (symbol : String)
    (pos : Position) (current_price : ℚ) : List TradeRow :=
  match pos.size, pos.entry_price with
  | some size, some entry =>
    if entry = 0 then ledger   -- ZeroDivisionError in profit_loss_percent
    else
      let exit_size := size / 2
      let remaining_size := size - exit_size
      let exit_trade : TradeData := {
        symbol := some symbol
        entry_price := some entry
        exit_price := some current_price
        position_size := some exit_size
        status := some "CLOSED"
        exit_time := some now
        profit_loss := some ((current_price - entry) * exit_size)
        profit_loss_percent := some ((current_price / entry - 1) * 100)
        notes := some "Partial exit" }
      match log_trade now ledger exit_trade with
      | (true, ledger1) =>
        let update_data : Patch := {
          position_size := some remaining_size
          notes := some "Partial exit of shares" }
        (update_trade now ledger1 symbol update_data).2
      | (false, _) => ledger   -- "Failed to log partial exit", no further mutation
  | _, _ => ledger   -- KeyError, caught by the outer handler

/-- `PositionManager._handle_stop_adjustment`.  `params` models
`action.get('params')` after float parsing: `none` = key missing or falsy,
`some none` = present but unparseable (ValueError, caught), `some (some v)` =
parsed new stop `v`.  The account balance and the per-trade risk-percent limit
are passed in as the values the account manager and config would return. -/
def handle_stop_adjustment (now : String) (ledger : List TradeRow)
    (symbol : String) (pos : Position) (params : Option (Option ℚ))
    (account_value max_risk_percent : ℚ) : List TradeRow :=
  match params with
  | none => ledger   -- "Missing stop price parameters"
  | some none => ledger   -- ValueError "Invalid stop price format"
  | some (some new_stop) =>
    match pos.entry_price with
    | none => ledger   -- KeyError, caught by the outer handler
    | some entry =>
      if new_stop ≥ entry then ledger   -- "Invalid stop price: above entry price"
      else
        match pos.size with
        | none => ledger   -- KeyError, caught by the outer handler
        | some size =>
          if account_value = 0 then ledger   -- ZeroDivisionError in the risk check
          else
            let new_risk := (entry - new_stop) * size
            if new_risk / account_value * 100 > max_risk_percent then
              ledger   -- "New stop would exceed risk limits"
            else
              (update_trade now ledger symbol
                { stop_price := some new_stop, notes := some "Stop adjusted" }).2

/-! ## Shared sample data and helper lemmas -/

/-- A ledger row for an OPEN AAPL position (entry 10, stop 9.5, 100 shares),
exactly as `log_trade` would create it. -/
def sampleOpenRow : TradeRow := {
  timestamp := "t0"
  symbol := "AAPL"
  entry_price := some 10
  target_price := some 11
  stop_price := some (19 / 2)
  position_size := some 100
  confidence := none
  reason := ""
  ttype := "PAPER"
  simulated := true
  status := "OPEN"
  exit_price := none
  exit_time := none
  profit_loss := none
  profit_loss_percent := none
  notes := "" }

theorem high_water_mark_le_step (m : AccountMetrics) (inp : AccountInput) :
    m.high_water_mark ≤ (update_account_metrics m inp).high_water_mark := by
  unfold update_account_metrics
  cases inp <;> dsimp only <;> split <;> simp_all <;> linarith

end TradingAssistant

namespace TradingAssistant

/-! ## Claims -/

/-- Claim C8: the high-water mark is monotonically non-decreasing — after any
sequence of `update_account_metrics` calls, with any positions or broker
snapshots as inputs, `metrics['high_water_mark']` is at least its previous
value. -/
theorem C8_high_water_mark_monotone (m : AccountMetrics)
    (inputs : List AccountInput) :
    m.high_water_mark ≤ (inputs.foldl update_account_metrics m).high_water_mark := by
  induction inputs generalizing m with
  | nil => exact le_refl _
  | cons i rest ih =>
    exact le_trans (high_water_mark_le_step m i) (ih (update_account_metrics m i))

/-- Claim C10: every record accepted by `log_trade` is stored with
`exit_price`, `exit_time`, `profit_loss` and `profit_loss_percent` all unset,
whatever the caller supplied for them; its `position_size` comes from the
caller's `size` key (default 100), and a caller-supplied `position_size` key
is ignored entirely. -/
theorem C10_log_trade_normalizes_record (now : String) (ledger : List TradeRow)
    (d : TradeData) (s : String) (ep : ℚ)
    (hs : d.symbol = some s) (he : d.entry_price = some ep) :
    ∃ r, log_trade now ledger d = (true, ledger ++ [r]) ∧
      r.exit_price = none ∧ r.exit_time = none ∧ r.profit_loss = none ∧
      r.profit_loss_percent = none ∧ r.position_size = some (d.size.getD 100) ∧
      ∀ v, log_trade now ledger { d with position_size := v } =
        log_trade now ledger d := by
  cases d
  simp only at hs he
  subst hs he
  exact ⟨_, rfl, rfl, rfl, rfl, rfl, rfl, fun v => rfl⟩

theorem C10_log_trade_normalizes_record_witness :
    ∃ r, log_trade "t" []
        { symbol := some "AAPL", entry_price := some 10,
          exit_price := some 12, profit_loss := some 999,
          position_size := some 7, status := some "CLOSED" } = (true, [] ++ [r]) ∧
      r.exit_price = none ∧ r.exit_time = none ∧ r.profit_loss = none ∧
      r.profit_loss_percent = none ∧
      r.position_size = some ((none : Option ℚ).getD 100) ∧
      ∀ v, log_trade "t" []
          { symbol := some "AAPL", entry_price := some 10,
            exit_price := some 12, profit_loss := some 999,
            position_size := v, status := some "CLOSED" } =
        log_trade "t" []
          { symbol := some "AAPL", entry_price := some 10,
            exit_price := some 12, profit_loss := some 999,
            position_size := some 7, status := some "CLOSED" } :=
  C10_log_trade_normalizes_record "t" [] _ "AAPL" 10 rfl rfl

/-- Claim C5, counterexample: closing a trade with a patch that has no
`exit_price` does not fail — `update_trade` returns `True` and flips the
record's status to CLOSED (leaving the exit fields unset), contradicting the
claimed `MissingExitPrice` rejection with the ledger unchanged. -/
theorem C5_counterexample :
    update_trade "u" [sampleOpenRow] "AAPL" { status := some "CLOSED" } =
      (true, [{ sampleOpenRow with status := "CLOSED" }]) := by
  rfl

/-- Claim C5 as amended: an `update_trade` call on an existing OPEN record
whose patch sets status to CLOSED but contains no `exit_price` succeeds,
storing the record with status CLOSED and every other field — in particular
`exit_price`, `exit_time`, `profit_loss` — unchanged; no failure occurs. -/
theorem C5_close_without_exit_price_amended (now : String)
    (ledger : List TradeRow) (s : String) (i : ℕ) (row : TradeRow)
    (hidx : lastOpenIdx? ledger s = some i) (hrow : ledger[i]? = some row) :
    update_trade now ledger s { status := some "CLOSED" } =
      (true, ledger.set i { row with status := "CLOSED" }) := by
  simp only [update_trade, hidx, hrow, applyPatch, patchCell, Option.getD]

theorem C5_close_without_exit_price_amended_witness :
    update_trade "u" [sampleOpenRow] "AAPL" { status := some "CLOSED" } =
      (true, [sampleOpenRow].set 0 { sampleOpenRow with status := "CLOSED" }) :=
  C5_close_without_exit_price_amended "u" [sampleOpenRow] "AAPL" 0 sampleOpenRow
    rfl rfl

/-- Claim C3, counterexample: a patch that sets status to CLOSED with a
caller-supplied `profit_loss` but no `exit_price` stores the caller's value
(999) verbatim — the store computes nothing, contradicting the claim that a
caller-supplied `profit_loss` never ends up stored on a CLOSED transition. -/
theorem C3_counterexample :
    update_trade "u" [sampleOpenRow] "AAPL"
      { status := some "CLOSED", profit_loss := some 999 } =
      (true,
        [{ sampleOpenRow with status := "CLOSED", profit_loss := some 999 }]) := by
  rfl

/-- Claim C3 as amended: when the patch sets status to CLOSED *and* contains
an `exit_price`, the stored `profit_loss` is `(exit_price - entry_price) *
position_size` and the stored `profit_loss_percent` is
`(exit_price/entry_price - 1) * 100`, computed by the store from the record's
own entry price and position size; any caller-supplied `profit_loss` is
overwritten.  Without an `exit_price` in the patch a caller-supplied value is
stored verbatim (see the counterexample). -/
theorem C3_server_side_pl_amended (now : String) (ledger : List TradeRow)
    (s : String) (p : Patch) (i : ℕ) (row : TradeRow) (xp e sz : ℚ)
    (hidx : lastOpenIdx? ledger s = some i) (hrow : ledger[i]? = some row)
    (hstat : p.status = some "CLOSED") (hxp : p.exit_price = some xp)
    (he : row.entry_price = some e) (he0 : e ≠ 0)
    (hpsz : p.position_size = none) (hrsz : row.position_size = some sz) :
    update_trade now ledger s p =
      (true, ledger.set i { applyPatch row p with
        profit_loss := some ((xp - e) * sz)
        profit_loss_percent := some ((xp / e - 1) * 100)
        exit_time := some (p.exit_time.getD now) }) := by
  simp only [update_trade, hidx, hrow, hxp, hstat, if_pos rfl]
  have h1 : (applyPatch row p).entry_price = some e := by
    simp [applyPatch, he]
  have h2 : (applyPatch row p).position_size = some sz := by
    simp [applyPatch, patchCell, hpsz, hrsz]
  rw [h1, h2]
  simp [he0]

theorem C3_server_side_pl_amended_witness :
    update_trade "u" [sampleOpenRow] "AAPL"
      { status := some "CLOSED", exit_price := some 11, profit_loss := some 999 } =
      (true, [sampleOpenRow].set 0
        { applyPatch sampleOpenRow
            { status := some "CLOSED", exit_price := some 11,
              profit_loss := some 999 } with
          profit_loss := some (((11 : ℚ) - 10) * 100)
          profit_loss_percent := some (((11 : ℚ) / 10 - 1) * 100)
          exit_time := some ((none : Option String).getD "u") }) :=
  C3_server_side_pl_amended "u" [sampleOpenRow] "AAPL" _ 0 sampleOpenRow 11 10 100
    rfl rfl rfl rfl rfl (by norm_num) rfl rfl

/-- Claim C4, counterexample: with an OPEN AAPL record already in the ledger,
a second `log_trade` for AAPL also succeeds (no `DuplicateOpenPosition`
failure exists) and the ledger then holds two OPEN AAPL records, not one. -/
theorem C4_counterexample :
    (log_trade "t2" (log_trade "t1" []
        { symbol := some "AAPL", entry_price := some 10 }).2
      { symbol := some "AAPL", entry_price := some 10 }).1 = true ∧
    openCount (log_trade "t2" (log_trade "t1" []
        { symbol := some "AAPL", entry_price := some 10 }).2
      { symbol := some "AAPL", entry_price := some 10 }).2 "AAPL" = 2 := by
  exact ⟨rfl, rfl⟩

/-- Claim C4 as amended: `log_trade` performs no duplicate-open check — a call
for a symbol that already has an OPEN record succeeds just like the first one
and appends another OPEN record, so two `log_trade` calls for the same symbol
add two OPEN records for it. -/
theorem C4_duplicate_open_appends_amended (now1 now2 : String)
    (ledger : List TradeRow) (d : TradeData) (s : String) (ep : ℚ)
    (hs : d.symbol = some s) (he : d.entry_price = some ep)
    (hst : d.status = none) :
    (log_trade now1 ledger d).1 = true ∧
    (log_trade now2 (log_trade now1 ledger d).2 d).1 = true ∧
    openCount (log_trade now2 (log_trade now1 ledger d).2 d).2 s =
      openCount ledger s + 2 := by
  cases d
  simp only at hs he hst
  subst hs he hst
  refine ⟨rfl, rfl, ?_⟩
  simp [log_trade, openCount, get_open_positions, List.filter_append,
    List.countP_append]

theorem C4_duplicate_open_appends_amended_witness :
    (log_trade "t1" [] { symbol := some "AAPL", entry_price := some 10 }).1 = true ∧
    (log_trade "t2" (log_trade "t1" []
        { symbol := some "AAPL", entry_price := some 10 }).2
      { symbol := some "AAPL", entry_price := some 10 }).1 = true ∧
    openCount (log_trade "t2" (log_trade "t1" []
        { symbol := some "AAPL", entry_price := some 10 }).2
      { symbol := some "AAPL", entry_price := some 10 }).2 "AAPL" =
      openCount [] "AAPL" + 2 :=
  C4_duplicate_open_appends_amended "t1" "t2" [] _ "AAPL" 10 rfl rfl rfl

/-- Claim C1, counterexample: a position whose data holds numeric
`entry_price` and `stop_price` but no `target_price` fails the required-field
validation of `analyze_position` before the forced-exit check runs, so with
the market price (9.4) at or below the stop (9.5) the call still returns the
HOLD/analysis-error dict of the exception handler, not the stop-loss EXIT the
claim demands. -/
theorem C1_counterexample :
    ((47 : ℚ) / 5 ≤ 19 / 2) ∧
    analyze_position { symbol := some "AAPL", current_price := some (47 / 5) }
        { entry_price := some 10, stop_price := some (19 / 2) }
        ActionKind.hold =
      ⟨.hold, .analysisError⟩ := by
  exact ⟨by norm_num, rfl⟩

/-- Claim C1 as amended: for every position whose data contains numeric
`entry_price`, `stop_price` *and* `target_price`, and stock data carrying a
symbol and a numeric current price, if the market price is at or below the
stop price then `analyze_position` returns the stop-loss EXIT decision,
whatever action the oracle requested — the override runs before the oracle is
consulted. -/
theorem C1_stop_loss_override_amended (stock : Stock) (pos : Position)
    (oracle : ActionKind) (sym : String) (price entry target stop : ℚ)
    (hsym : stock.symbol = some sym) (hp : stock.current_price = some price)
    (he : pos.entry_price = some entry) (ht : pos.target_price = some target)
    (hst : pos.stop_price = some stop) (hle : price ≤ stop) :
    analyze_position stock pos oracle = ⟨.exitPos, .stopLossViolated⟩ := by
  cases stock
  cases pos
  simp only at hsym hp he ht hst
  subst hsym hp he ht hst
  simp [analyze_position, should_force_exit, hle]

theorem C1_stop_loss_override_amended_witness :
    analyze_position { symbol := some "AAPL", current_price := some (47 / 5) }
        { entry_price := some 10, target_price := some 11,
          stop_price := some (19 / 2), size := some 100 }
        ActionKind.hold =
      ⟨.exitPos, .stopLossViolated⟩ :=
  C1_stop_loss_override_amended _ _ _ "AAPL" (47 / 5) 10 11 (19 / 2)
    rfl rfl rfl rfl rfl (by norm_num)

/-- Claim C7, counterexample: with a long position whose current stop is 9.5,
an ADJUST_STOPS action carrying the new stop 9 — strictly below the current
stop, i.e. moving against the position — is *not* rejected: the handler only
compares the new stop with the entry price (10) and, the risk at the new stop
((10-9)*10 over a 3000 balance = 0.33% ≤ 1%) being within the limit, it
mutates the ledger row's stop to 9. -/
theorem C7_counterexample :
    handle_stop_adjustment "u" [sampleOpenRow] "AAPL"
        { entry_price := some 10, stop_price := some (19 / 2), size := some 10 }
        (some (some 9)) 3000 1 =
      [{ sampleOpenRow with stop_price := some 9, notes := "Stop adjusted" }] ∧
    (9 : ℚ) < 19 / 2 := by
  constructor
  · have h1 : ¬((9 : ℚ) ≥ 10) := by norm_num
    have h2 : ¬((3000 : ℚ) = 0) := by norm_num
    have h3 : ¬(((10 : ℚ) - 9) * 10 / 3000 * 100 > 1) := by norm_num
    simp only [handle_stop_adjustment, if_neg h1, if_neg h2, if_neg h3]
    rfl
  · norm_num

/-- Claim C7 as amended: `_handle_stop_adjustment` rejects (no ledger
mutation) when the parsed new stop is *at or above the entry price* — not,
as claimed, when it is below the current stop — or when the risk at the new
stop, `(entry_price - new_stop) * size`, exceeds the per-trade risk-percent
limit of the account balance; only when the new stop is below the entry and
within the risk limit does it call `update_trade` with the new stop price. -/
theorem C7_stop_adjustment_checks_amended (now : String)
    (ledger : List TradeRow) (symbol : String) (pos : Position)
    (av mrp e sz v : ℚ)
    (hpe : pos.entry_price = some e) (hps : pos.size = some sz)
    (hav : av ≠ 0) :
    (e ≤ v →
      handle_stop_adjustment now ledger symbol pos (some (some v)) av mrp =
        ledger) ∧
    (mrp < (e - v) * sz / av * 100 →
      handle_stop_adjustment now ledger symbol pos (some (some v)) av mrp =
        ledger) ∧
    (v < e → (e - v) * sz / av * 100 ≤ mrp →
      handle_stop_adjustment now ledger symbol pos (some (some v)) av mrp =
        (update_trade now ledger symbol
          { stop_price := some v, notes := some "Stop adjusted" }).2) := by
  simp only [handle_stop_adjustment, hpe, hps]
  refine ⟨?_, ?_, ?_⟩
  · intro h
    rw [if_pos (ge_iff_le.mpr h)]
  · intro h
    by_cases hge : v ≥ e
    · rw [if_pos hge]
    · rw [if_neg hge, if_neg hav, if_pos (gt_iff_lt.mpr h)]
  · intro hlt hrisk
    rw [if_neg (by exact fun hge => absurd hlt (not_lt.mpr hge)), if_neg hav,
      if_neg (not_lt.mpr hrisk)]

theorem C7_stop_adjustment_checks_amended_witness :
    handle_stop_adjustment "u" [sampleOpenRow] "AAPL"
        { entry_price := some 10, stop_price := some (19 / 2), size := some 10 }
        (some (some 9)) 3000 1 =
      (update_trade "u" [sampleOpenRow] "AAPL"
        { stop_price := some 9, notes := some "Stop adjusted" }).2 :=
  (C7_stop_adjustment_checks_amended "u" [sampleOpenRow] "AAPL" _ 3000 1 10 10 9
      rfl rfl (by norm_num)).2.2 (by norm_num) (by norm_num)

/-- Claim C6, code bug: `_handle_partial_exit` builds the exited slice with
`position_size = s/2`, an exit price and the slice's P&L, but `log_trade`
reads the size only from the `size` key and hard-codes the exit fields to
`None` — so, for an open AAPL position of 50 shares partially exited at 11
(entry 10), the appended CLOSED record carries `position_size = 100` (the
default) instead of 25, and no `exit_price`/`profit_loss`; only the shrink of
the original OPEN row to 25 happens as specified. -/
theorem C6_partial_exit_code_bug :
    handle_partial_exit "n"
        [{ sampleOpenRow with position_size := some 50 }] "AAPL"
        { entry_price := some 10, size := some 50 } 11 =
      [{ sampleOpenRow with
          position_size := some 25
          notes := "Partial exit of shares" },
       { timestamp := "n", symbol := "AAPL", entry_price := some 10,
         target_price := none, stop_price := none, position_size := some 100,
         confidence := none, reason := "", ttype := "PAPER", simulated := true,
         status := "CLOSED", exit_price := none, exit_time := none,
         profit_loss := none, profit_loss_percent := none,
         notes := "Partial exit" }] := by
  have h0 : ¬((10 : ℚ) = 0) := by norm_num
  have hco : ¬(("CLOSED" : String) = "OPEN") := by decide
  simp only [handle_partial_exit, if_neg h0, log_trade]
  norm_num [update_trade, lastOpenIdx?, isOpenFor, applyPatch, patchCell,
    sampleOpenRow]
  rw [if_neg hco]
  rfl

/-- Claim C2, counterexample: with the default configuration (risk 1%,
min position 3%, max position 20%, increment 5), balance 3000, buying power
50, entry 10, stop 5, the initial 6 shares are bumped *up* to 9 by the
minimum-position clamp and then rounded up to 10, so the returned record has
`risk_percent = 5/3 > 1` and `position_value = 100 > 50 = buying_power`,
violating both claimed bounds. -/
theorem C2_counterexample :
    calculate_position_size {} 3000 50 10 5 =
      some { shares := 10, position_value := 100, risk_amount := 50,
             risk_percent := 5 / 3, position_percent := 10 / 3 } ∧
    (1 : ℚ) < 5 / 3 ∧ (50 : ℚ) < 100 := by
  refine ⟨?_, by norm_num, by norm_num⟩
  norm_num [calculate_position_size, cpsShares2, cpsShares1, cpsShares0,
    pyInt, pyRound]

theorem pyInt_cast_le {q : ℚ} (h : 0 ≤ q) : (pyInt q : ℚ) ≤ q := by
  simp only [pyInt, if_pos h]
  exact Int.floor_le q

/-- Claim C2 as amended: the bounds `risk_percent ≤ risk_per_trade_percent`
and `position_value ≤ buying_power` do hold provided the pre-clamp position
value is already at least the minimum-position floor (so the minimum-position
bump-up never fires) and the rounding to the preferred share increment does
not increase the clamped share count; the counterexample shows both caveats
are necessary. -/
theorem C2_risk_and_buying_power_caps_amended (cfg : SizingConfig)
    (bal bp e st : ℚ)
    (hbal : 0 < bal) (he : 0 < e)
    (hrp : 0 ≤ cfg.risk_per_trade_percent)
    (hmaxp : 0 ≤ cfg.max_position_percent) (hbp : 0 ≤ bp)
    (hinc : cfg.preferred_share_increment ≠ 0) (hne : e ≠ st)
    (hmin : bal * cfg.min_position_percent / 100 ≤
      (cpsShares0 cfg bal e st : ℚ) * e)
    (hround : cpsShares2 cfg bal bp e st ≤ cpsShares1 cfg bal bp e st) :
    ∃ r, calculate_position_size cfg bal bp e st = some r ∧
      r.risk_percent ≤ cfg.risk_per_trade_percent ∧
      r.position_value ≤ bp := by
  have hrps : (0 : ℚ) < |e - st| := abs_pos.mpr (sub_ne_zero.mpr hne)
  have hmra : (0 : ℚ) ≤ bal * cfg.risk_per_trade_percent / 100 := by positivity
  have hs0le : (cpsShares0 cfg bal e st : ℚ) ≤
      bal * cfg.risk_per_trade_percent / 100 / |e - st| := by
    rw [cpsShares0]
    exact pyInt_cast_le (div_nonneg hmra hrps.le)
  have hmaxPos : (0 : ℚ) ≤ min (bal * cfg.max_position_percent / 100) bp :=
    le_min (by positivity) hbp
  have hs1_def : cpsShares1 cfg bal bp e st =
      if (cpsShares0 cfg bal e st : ℚ) * e >
          min (bal * cfg.max_position_percent / 100) bp then
        pyInt (min (bal * cfg.max_position_percent / 100) bp / e)
      else cpsShares0 cfg bal e st := by
    simp only [cpsShares1]
    rw [if_neg (not_lt.mpr hmin)]
  -- in both clamp cases the clamped share count keeps both budgets
  have hkey : (cpsShares1 cfg bal bp e st : ℚ) * e ≤
        min (bal * cfg.max_position_percent / 100) bp ∧
      (cpsShares1 cfg bal bp e st : ℚ) * |e - st| ≤
        bal * cfg.risk_per_trade_percent / 100 := by
    by_cases hcl : (cpsShares0 cfg bal e st : ℚ) * e >
        min (bal * cfg.max_position_percent / 100) bp
    · rw [hs1_def, if_pos hcl]
      have hle : (pyInt (min (bal * cfg.max_position_percent / 100) bp / e) : ℚ) ≤
          min (bal * cfg.max_position_percent / 100) bp / e :=
        pyInt_cast_le (div_nonneg hmaxPos he.le)
      constructor
      · calc (pyInt (min (bal * cfg.max_position_percent / 100) bp / e) : ℚ) * e
            ≤ min (bal * cfg.max_position_percent / 100) bp / e * e :=
              mul_le_mul_of_nonneg_right hle he.le
          _ = min (bal * cfg.max_position_percent / 100) bp :=
              div_mul_cancel₀ _ he.ne'
      · have hlt : (pyInt (min (bal * cfg.max_position_percent / 100) bp / e) : ℚ) <
            (cpsShares0 cfg bal e st : ℚ) := by
          have : min (bal * cfg.max_position_percent / 100) bp / e <
              (cpsShares0 cfg bal e st : ℚ) := by
            rw [div_lt_iff₀ he]
            exact hcl
          exact lt_of_le_of_lt hle this
        have hlow : (pyInt (min (bal * cfg.max_position_percent / 100) bp / e) : ℚ) ≤
            (cpsShares0 cfg bal e st : ℚ) := le_of_lt hlt
        calc (pyInt (min (bal * cfg.max_position_percent / 100) bp / e) : ℚ) * |e - st|
            ≤ (cpsShares0 cfg bal e st : ℚ) * |e - st| :=
              mul_le_mul_of_nonneg_right hlow hrps.le
          _ ≤ bal * cfg.risk_per_trade_percent / 100 / |e - st| * |e - st| :=
              mul_le_mul_of_nonneg_right hs0le hrps.le
          _ = bal * cfg.risk_per_trade_percent / 100 :=
              div_mul_cancel₀ _ hrps.ne'
    · rw [hs1_def, if_neg hcl]
      refine ⟨not_lt.mp hcl, ?_⟩
      calc (cpsShares0 cfg bal e st : ℚ) * |e - st|
          ≤ bal * cfg.risk_per_trade_percent / 100 / |e - st| * |e - st| :=
            mul_le_mul_of_nonneg_right hs0le hrps.le
        _ = bal * cfg.risk_per_trade_percent / 100 := div_mul_cancel₀ _ hrps.ne'
  have hs2 : (cpsShares2 cfg bal bp e st : ℚ) ≤ (cpsShares1 cfg bal bp e st : ℚ) :=
    Int.cast_le.mpr hround
  have hpv : (cpsShares2 cfg bal bp e st : ℚ) * e ≤ bp :=
    le_trans (le_trans (mul_le_mul_of_nonneg_right hs2 he.le) hkey.1)
      (min_le_right _ _)
  have hra : (cpsShares2 cfg bal bp e st : ℚ) * |e - st| ≤
      bal * cfg.risk_per_trade_percent / 100 :=
    le_trans (mul_le_mul_of_nonneg_right hs2 hrps.le) hkey.2
  have hsome : calculate_position_size cfg bal bp e st =
      some { shares := cpsShares2 cfg bal bp e st
             position_value := (cpsShares2 cfg bal bp e st : ℚ) * e
             risk_amount := (cpsShares2 cfg bal bp e st : ℚ) * |e - st|
             risk_percent :=
               (cpsShares2 cfg bal bp e st : ℚ) * |e - st| / bal * 100
             position_percent :=
               (cpsShares2 cfg bal bp e st : ℚ) * e / bal * 100 } := by
    simp only [calculate_position_size]
    rw [if_neg hrps.ne', if_neg hbal.ne', if_neg hinc,
      if_neg (fun h => he.ne' h.1)]
  refine ⟨_, hsome, ?_, hpv⟩
  have : (cpsShares2 cfg bal bp e st : ℚ) * |e - st| / bal * 100 ≤
      bal * cfg.risk_per_trade_percent / 100 / bal * 100 := by
    have hb100 : (0 : ℚ) < bal * 100 := by positivity
    rw [div_mul_eq_mul_div, div_mul_eq_mul_div, div_le_div_iff₀ hbal hbal]
    nlinarith [hra]
  calc (cpsShares2 cfg bal bp e st : ℚ) * |e - st| / bal * 100
      ≤ bal * cfg.risk_per_trade_percent / 100 / bal * 100 := this
    _ = cfg.risk_per_trade_percent := by field_simp; ring

theorem C2_risk_and_buying_power_caps_amended_witness :
    ((0 : ℚ) < 3000 ∧ (0 : ℚ) < 10 ∧
      ({} : SizingConfig).preferred_share_increment ≠ 0 ∧ (10 : ℚ) ≠ 19 / 2 ∧
      3000 * ({} : SizingConfig).min_position_percent / 100 ≤
        (cpsShares0 {} 3000 10 (19 / 2) : ℚ) * 10 ∧
      cpsShares2 {} 3000 3000 10 (19 / 2) ≤ cpsShares1 {} 3000 3000 10 (19 / 2)) ∧
    ∃ r, calculate_position_size {} 3000 3000 10 (19 / 2) = some r ∧
      r.risk_percent ≤ ({} : SizingConfig).risk_per_trade_percent ∧
      r.position_value ≤ 3000 := by
  have habs : |(10 : ℚ) - 19 / 2| = 1 / 2 := by
    rw [abs_of_pos (by norm_num : (0 : ℚ) < 10 - 19 / 2)]
    norm_num
  have h0 : cpsShares0 {} 3000 10 (19 / 2) = 60 := by
    rw [cpsShares0, habs]
    show pyInt (3000 * 1 / 100 / (1 / 2)) = 60
    norm_num [pyInt]
  have h1 : cpsShares1 {} 3000 3000 10 (19 / 2) = 60 := by
    rw [cpsShares1, h0]
    show (if ((60 : ℤ) : ℚ) * 10 < 3000 * 3 / 100 then _
      else if ((60 : ℤ) : ℚ) * 10 > min (3000 * 20 / 100) 3000 then _
      else (60 : ℤ)) = (60 : ℤ)
    rw [min_eq_left (by norm_num : (3000 : ℚ) * 20 / 100 ≤ 3000)]
    norm_num
  have h2 : cpsShares2 {} 3000 3000 10 (19 / 2) = 60 := by
    rw [cpsShares2, h1]
    show pyRound (((60 : ℤ) : ℚ) / ((5 : ℤ) : ℚ)) * 5 = 60
    have h12 : (((60 : ℤ) : ℚ) / ((5 : ℤ) : ℚ)) = 12 := by norm_num
    rw [h12, pyRound]
    have hfl : ⌊(12 : ℚ)⌋ = 12 := by norm_num
    rw [hfl]
    norm_num
  have hmin : 3000 * ({} : SizingConfig).min_position_percent / 100 ≤
      (cpsShares0 {} 3000 10 (19 / 2) : ℚ) * 10 := by
    rw [h0]
    show (3000 : ℚ) * 3 / 100 ≤ ((60 : ℤ) : ℚ) * 10
    norm_num
  refine ⟨⟨by norm_num, by norm_num, by decide, by norm_num, hmin,
    by rw [h1, h2]⟩, ?_⟩
  exact C2_risk_and_buying_power_caps_amended {} 3000 3000 10 (19 / 2)
    (by norm_num) (by norm_num)
    (by show (0 : ℚ) ≤ 1; norm_num)
    (by show (0 : ℚ) ≤ 20; norm_num) (by norm_num)
    (by decide) (by norm_num) hmin (by rw [h1, h2])

/-- Sequential composition of a batch of `log_trade` calls.  The source fans
the symbol-analysis work out as cooperative asyncio tasks
(`asyncio.gather` in `TradingSystem.run`); `log_trade` contains no `await`
point, so at event-loop granularity any interleaving of the N calls is some
sequential order of whole calls — which this function models, with the claim
quantifying over every order of the batch. -/
def log_trades (now : String) (ledger : List TradeRow) (ds : List TradeData) :
    List Bool × List TradeRow :=
  match ds with
  | [] => ([], ledger)
  | d :: rest =>
    let r1 := log_trade now ledger d
    let r2 := log_trades now r1.2 rest
    (r1.1 :: r2.1, r2.2)

theorem log_trade_append (now : String) (l : List TradeRow) (d : TradeData)
    (s : String) (ep : ℚ) (hs : d.symbol = some s) (he : d.entry_price = some ep) :
    ∃ row, log_trade now l d = (true, l ++ [row]) ∧ row.symbol = s ∧
      row.status = d.status.getD "OPEN" := by
  cases d
  simp only at hs he
  subst hs he
  exact ⟨_, rfl, rfl, rfl⟩

theorem openCount_append (l1 l2 : List TradeRow) (s : String) :
    openCount (l1 ++ l2) s = openCount l1 s + openCount l2 s := by
  simp [openCount, get_open_positions, List.filter_append, List.countP_append]

theorem openCount_eq_zero_of_fresh (l : List TradeRow) (s : String)
    (h : ∀ r ∈ l, r.symbol ≠ s) : openCount l s = 0 := by
  refine List.countP_eq_zero.mpr ?_
  intro r hr
  have hrl : r ∈ l := (List.mem_filter.mp hr).1
  simp [h r hrl]

theorem log_trade_openCount_other (now : String) (l : List TradeRow)
    (d : TradeData) (s : String) (hne : d.symbol ≠ some s) :
    openCount (log_trade now l d).2 s = openCount l s := by
  rcases hds : d.symbol with _ | s1
  · cases hde : d.entry_price <;> simp [log_trade, hds, hde]
  · rcases hde : d.entry_price with _ | e1
    · simp [log_trade, hds, hde]
    · obtain ⟨row, hlog, hrowsym, _⟩ := log_trade_append now l d s1 e1 hds hde
      rw [hlog]
      dsimp only
      rw [openCount_append]
      have hzero : openCount [row] s = 0 := by
        refine openCount_eq_zero_of_fresh _ _ ?_
        intro r hr
        have hreq : r = row := by simpa using hr
        subst hreq
        rw [hrowsym]
        intro h
        exact hne (by rw [hds, h])
      rw [hzero]
      exact Nat.add_zero _

theorem log_trades_openCount_other (now : String) (ds : List TradeData)
    (l : List TradeRow) (s : String) (h : ∀ d ∈ ds, d.symbol ≠ some s) :
    openCount (log_trades now l ds).2 s = openCount l s := by
  induction ds generalizing l with
  | nil => rfl
  | cons d rest ih =>
    simp only [log_trades]
    rw [ih _ (fun d1 hd1 => h d1 (List.mem_cons_of_mem _ hd1)),
      log_trade_openCount_other now l d s (h d (List.mem_cons_self _ _))]

/-- Claim C9: a batch of `log_trade` calls for N pairwise-distinct fresh
symbols, run in any order (the order of whole calls being the only
interleaving cooperative asyncio admits, as `log_trade` has no await point),
all succeed, grow the ledger by exactly N rows, and leave exactly one OPEN
record per symbol — none lost, none duplicated. -/
theorem C9_concurrent_log_trades_distinct_symbols (now : String)
    (ledger : List TradeRow) (ds : List TradeData)
    (hval : ∀ d ∈ ds, d.symbol.isSome ∧ d.entry_price.isSome ∧ d.status = none)
    (hnodup : (ds.map TradeData.symbol).Nodup)
    (hfresh : ∀ d ∈ ds, ∀ r ∈ ledger, some r.symbol ≠ d.symbol) :
    (log_trades now ledger ds).1 = List.replicate ds.length true ∧
    (log_trades now ledger ds).2.length = ledger.length + ds.length ∧
    ∀ d ∈ ds, ∀ s, d.symbol = some s →
      openCount (log_trades now ledger ds).2 s = 1 := by
  induction ds generalizing ledger with
  | nil => exact ⟨rfl, by simp [log_trades], by simp⟩
  | cons d rest ih =>
    obtain ⟨hsym, hent, hstat⟩ := hval d (List.mem_cons_self _ _)
    obtain ⟨s, hs⟩ := Option.isSome_iff_exists.mp hsym
    obtain ⟨ep, hep⟩ := Option.isSome_iff_exists.mp hent
    obtain ⟨row, hlog, hrowsym, hrowstat⟩ := log_trade_append now ledger d s ep hs hep
    have hrowopen : row.status = "OPEN" := by rw [hrowstat, hstat]; rfl
    have hnodup1 : d.symbol ∉ rest.map TradeData.symbol ∧
        (rest.map TradeData.symbol).Nodup := by
      rw [List.map_cons, List.nodup_cons] at hnodup
      exact hnodup
    have hfresh1 : ∀ d1 ∈ rest, ∀ r ∈ ledger ++ [row], some r.symbol ≠ d1.symbol := by
      intro d1 hd1 r hr
      rcases List.mem_append.mp hr with hrl | hrr
      · exact hfresh d1 (List.mem_cons_of_mem _ hd1) r hrl
      · have hreq : r = row := by simpa using hrr
        subst hreq
        rw [hrowsym]
        intro hcontra
        exact (hs ▸ hnodup1.1) (List.mem_map.mpr ⟨d1, hd1, hcontra.symm⟩)
    have ihres := ih (ledger ++ [row])
      (fun d1 hd1 => hval d1 (List.mem_cons_of_mem _ hd1)) hnodup1.2 hfresh1
    have hstep : (log_trades now ledger (d :: rest)).2 =
        (log_trades now (ledger ++ [row]) rest).2 := by
      simp [log_trades, hlog]
    refine ⟨?_, ?_, ?_⟩
    · simp [log_trades, hlog, ihres.1, List.replicate_succ]
    · rw [hstep, ihres.2.1]
      simp
      omega
    · intro d1 hd1 s1 hs1
      rw [hstep]
      rcases List.mem_cons.mp hd1 with rfl | hd1
      · rw [hs] at hs1
        injection hs1 with hseq
        subst hseq
        have hother : ∀ d2 ∈ rest, d2.symbol ≠ some s := by
          intro d2 hd2 hcontra
          exact (hs ▸ hnodup1.1) (List.mem_map.mpr ⟨d2, hd2, hcontra⟩)
        rw [log_trades_openCount_other now rest (ledger ++ [row]) s hother,
          openCount_append]
        have hzero : openCount ledger s = 0 :=
          openCount_eq_zero_of_fresh ledger s (by
            intro r hr hcontra
            exact hfresh d1 (List.mem_cons_self _ _) r hr (by rw [hcontra, hs]))
        have hone : openCount [row] s = 1 := by
          simp [openCount, get_open_positions, hrowopen, hrowsym]
        rw [hzero, hone]
      · exact ihres.2.2 d1 hd1 s1 hs1

theorem C9_concurrent_log_trades_distinct_symbols_witness :
    (log_trades "t" []
        [{ symbol := some "AAPL", entry_price := some 10 },
         { symbol := some "MSFT", entry_price := some 20 }]).1 =
      List.replicate 2 true ∧
    (log_trades "t" []
        [{ symbol := some "AAPL", entry_price := some 10 },
         { symbol := some "MSFT", entry_price := some 20 }]).2.length = 0 + 2 ∧
    ∀ d ∈ ([{ symbol := some "AAPL", entry_price := some 10 },
            { symbol := some "MSFT", entry_price := some 20 }] : List TradeData),
      ∀ s, d.symbol = some s →
        openCount (log_trades "t" []
          [{ symbol := some "AAPL", entry_price := some 10 },
           { symbol := some "MSFT", entry_price := some 20 }]).2 s = 1 :=
  C9_concurrent_log_trades_distinct_symbols "t" [] _
    (by decide) (by decide) (by simp)

end TradingAssistant
